import Mathlib

/-!
Shallow embedding of the PokeFinder service (files app/main.py, app/pokeapi_client.py,
app/models.py, app/utils.py, app/db.py).

The HTTP transport is modelled by oracles: the list endpoint is a function from
the request parameters (limit, offset) to an outcome (transport failure, or a
status code together with the parsed JSON body), and the detail endpoint is a
function from the detail url to such an outcome.  JSON dicts are modelled by
structures whose optional fields stand for `dict.get` results; fields of the
upstream payloads that the code never reads (for example `count`, `next` and
`previous` of the list page, which are only echoed by the debug endpoint) are
omitted.  The PostgreSQL store is modelled by `DBState`: the `pokemon` table is
an ordered list of rows keyed by `pokemon_id` (the primary key) and the
`pokemon_types` table is a multiset of rows (a SQL table is a bag of rows).
The session/commit discipline of `save_pokemon` is modelled explicitly: the
statements executed on the session build a pending state, and the single
`db.commit()` at the end either publishes it (`commitOk = true`) or fails,
leaving the store untouched.
-/

/-- One element of the `results` list of the upstream list page.  The code only
reads the `"url"` key (`item["url"]` guarded by `"url" in item`); `none` models
an item without that key. -/
structure ListItem where
  url? : Option String
deriving DecidableEq, Repr

/-- The parsed JSON body of the list endpoint.  `save_pokemon` only reads
`list_data.get("results", [])`; `none` models a body without a `results` key. -/
structure ListData where
  results? : Option (List ListItem)
deriving DecidableEq, Repr

/-- The nested `{"name": ..., "url": ...}` object of one entry of a detail
payload's `types` list (`entry.get("type", {})`). -/
structure TypeRef where
  name : Option String
  url : Option String
deriving DecidableEq, Repr

/-- One entry of the `types` list of a detail payload; `entry.get("type", {})`
yields the default `TypeRef` when the `type` key is absent. -/
structure TypeEntry where
  type? : Option TypeRef
deriving DecidableEq, Repr

/-- The parsed JSON body of one detail fetch, restricted to the keys that
`save_pokemon` reads via `details.get(...)`. -/
structure Details where
  id : Option Int
  name : Option String
  base_experience : Option Int
  height : Option Int
  order : Option Int
  weight : Option Int
  location_area_encounters : Option String
  types? : Option (List TypeEntry)
deriving DecidableEq, Repr

/-- A row of the `pokemon` table (ORM model `Pokemon` in app/models.py):
`pokemon_id` is the primary key, `name` is NOT NULL, the rest are nullable. -/
structure Pokemon where
  pokemon_id : Int
  name : String
  base_experience : Option Int
  height : Option Int
  order : Option Int
  weight : Option Int
  location_area_encounters : Option String
deriving DecidableEq, Repr

/-- Modelled from the spec: a row of the child `pokemon_types` table
(spec entity `CategoryMembership`: recordId, categoryName, categoryUrl).
app/models.py defines no `PokemonType` class even though app/main.py imports
one and inserts rows with exactly these three columns
(`pokemon_id`, `type_name`, `type_url`), so the shape is taken from the spec
and from those call sites. -/
structure PokemonType where
  pokemon_id : Int
  type_name : String
  type_url : String
deriving DecidableEq, Repr

/-- The persisted store: the `pokemon` table (list ordered by insertion, keyed
by the primary key `pokemon_id`) and the `pokemon_types` table (a bag of
rows). -/
@[ext] structure DBState where
  pokemon : List Pokemon
  pokemon_types : Multiset PokemonType
deriving DecidableEq

/-- Outcome of one HTTP request: `failure` is an httpx transport error raised
during `client.get`, `response s b` is a reply with status code `s` whose body
parses to `b`. -/
inductive HttpOutcome (α : Type) where
  | failure
  | response (status : Nat) (body : α)

/-- httpx counts exactly the 2xx statuses as success; `raise_for_status`
raises `HTTPStatusError` (a subclass of `HTTPError`) for every other status. -/
def is2xx (s : Nat) : Bool := 200 ≤ s && s < 300

/-- app/pokeapi_client.py `fetch_pokemon_list`: one GET of the list page for
the given limit and offset.  A transport error or a non-2xx status
(`resp.raise_for_status()`) raises, modelled as `Except.error`; otherwise the
parsed JSON body is returned. -/
def fetch_pokemon_list (net : Int → Int → HttpOutcome ListData) (limit offset : Int) :
    Except String ListData :=
  match net limit offset with
  | .failure => .error "httpx transport error"
  | .response status body =>
      if is2xx status then .ok body else .error "HTTP status error"

/-- app/pokeapi_client.py `fetch_pokemon_details`: one GET of a detail url.
Both a transport error and a non-2xx status raise `httpx.HTTPError`, which the
function catches, returning `None` (here `none`) instead; on success the parsed
JSON body is returned.  (The shared `AsyncClient` argument carries no state
that the function reads, so it is not modelled.) -/
def fetch_pokemon_details (net : String → HttpOutcome Details) (url : String) :
    Option Details :=
  match net url with
  | .failure => none
  | .response status body =>
      if is2xx status then some body else none

/-- `P.any (r => r.pokemon_id == k)`: whether the `pokemon` table already has a
row with the given primary key. -/
def containsKey (P : List Pokemon) (k : Int) : Bool :=
  P.any (fun r => r.pokemon_id == k)

/-- Overwrite `x` by `row` when they share the primary key. -/
def replaceIf (row x : Pokemon) : Pokemon :=
  if x.pokemon_id = row.pokemon_id then row else x

/-- The `INSERT ... ON CONFLICT (pokemon_id) DO UPDATE SET ...` statement of
app/main.py: insert the row if its key is new, else overwrite every tracked
column of the existing row (the `set_` clause lists all columns but the key). -/
def upsertPokemon (P : List Pokemon) (row : Pokemon) : List Pokemon :=
  if containsKey P row.pokemon_id then P.map (replaceIf row) else P ++ [row]

/-- The `for entry in types` insertion loop of app/main.py: from each entry take
`entry.get("type", {})` and insert a row exactly when both `type_name` and
`type_url` are truthy in Python, i.e. present and non-empty. -/
def typeRows (pid : Int) (tys : List TypeEntry) : List PokemonType :=
  tys.filterMap (fun entry =>
    match (entry.type?.getD ⟨none, none⟩).name, (entry.type?.getD ⟨none, none⟩).url with
    | some type_name, some type_url =>
        if type_name ≠ "" ∧ type_url ≠ "" then some ⟨pid, type_name, type_url⟩ else none
    | _, _ => none)

/-- The write set that one well-formed detail payload contributes: the key, the
upserted `pokemon` row, and the fresh `pokemon_types` rows. -/
structure SaveAction where
  pid : Int
  row : Pokemon
  tys : List PokemonType
deriving DecidableEq, Repr

/-- The normalization performed by the loop body of app/main.py on one detail
payload: read the fields with `details.get`, and when `id` or `name` is missing
skip the record (`continue`), else produce its write set. -/
def actionOf (details : Details) : Option SaveAction :=
  match details.id, details.name with
  | some pokemon_id, some name =>
      some ⟨pokemon_id,
            ⟨pokemon_id, name, details.base_experience, details.height,
             details.order, details.weight, details.location_area_encounters⟩,
            typeRows pokemon_id (details.types?.getD [])⟩
  | _, _ => none

/-- The three SQL statements the loop body executes for one kept record: the
upsert into `pokemon`, the `DELETE FROM pokemon_types WHERE pokemon_id = pid`,
and the insertion of the fresh type rows. -/
def applyAction (db : DBState) (a : SaveAction) : DBState :=
  { pokemon := upsertPokemon db.pokemon a.row,
    pokemon_types := db.pokemon_types.filter (fun r => r.pokemon_id ≠ a.pid) + ↑a.tys }

/-- One iteration of the `for details in details_list` loop: `None` results and
malformed payloads contribute nothing; a kept record performs its writes and
counts one toward `saved_count`. -/
def applyDetail (db : DBState) (od : Option Details) : Nat × DBState :=
  match od.bind actionOf with
  | none => (0, db)
  | some a => (1, applyAction db a)

/-- The whole `for details in details_list` loop of app/main.py, returning the
final `saved_count` and the session state produced by the executed
statements. -/
def processDetails : List (Option Details) → DBState → Nat × DBState
  | [], db => (0, db)
  | od :: rest, db =>
      let r := applyDetail db od
      let s := processDetails rest r.2
      (r.1 + s.1, s.2)

/-- The fan-out of detail fetches in app/main.py: one task per list item that
carries a `"url"` key (`for item in results if "url" in item`), gathered in
order. -/
def gatherDetails (net : String → HttpOutcome Details) (results : List ListItem) :
    List (Option Details) :=
  results.filterMap (fun item => item.url?.map (fetch_pokemon_details net))

/-- How a run of the `/pokemon/save` endpoint can fail: an `HTTPException`
raised with the given status code, or an uncaught failure of the final
`db.commit()` (the spec's `PersistenceFailure`). -/
inductive RunError where
  | httpException (status : Nat)
  | persistenceFailure
deriving DecidableEq, Repr

/-- The JSON summary returned by a successful run of `/pokemon/save`. -/
structure SyncResponse where
  message : String
  saved_count : Nat
  offset : Int
  limit : Int
deriving DecidableEq, Repr

/-- app/main.py `save_pokemon`, the `/pokemon/save` endpoint.  Step 1 fetches
the list page; on failure it raises `HTTPException(status_code=500)`.  Step 2
returns a zero summary when `list_data.get("results", [])` is empty, without
fetching details and without touching the session.  Step 3 gathers the detail
fetches and runs the upsert loop on the session.  Step 4 commits once for the
whole batch: on success the pending writes become the visible store, on a
persistence failure nothing is published and the error propagates. -/
def save_pokemon (limit offset : Int) (listNet : Int → Int → HttpOutcome ListData)
    (detailNet : String → HttpOutcome Details) (commitOk : Bool) (db : DBState) :
    Except RunError SyncResponse × DBState :=
  match fetch_pokemon_list listNet limit offset with
  | .error _ => (.error (.httpException 500), db)
  | .ok list_data =>
      let results := list_data.results?.getD []
      if results.isEmpty then
        (.ok ⟨"Successfully saved Pokemon to database", 0, offset, limit⟩, db)
      else
        let details_list := gatherDetails detailNet results
        let r := processDetails details_list db
        if commitOk then
          (.ok ⟨"Successfully saved Pokemon to database", r.1, offset, limit⟩, r.2)
        else
          (.error .persistenceFailure, db)

/-- Modelled subset of Python `int(str)` digit parsing: accumulate decimal
digits, failing on any other character. -/
def digitsVal : List Char → Nat → Option Nat
  | [], acc => some acc
  | c :: rest, acc =>
      if c.isDigit then digitsVal rest (acc * 10 + (c.toNat - 48)) else none

/-- Strip leading and trailing whitespace from a character list, as Python
`int(str)` ignores surrounding whitespace. -/
def pyStrip (cs : List Char) : List Char :=
  ((cs.dropWhile Char.isWhitespace).reverse.dropWhile Char.isWhitespace).reverse

/-- Modelled subset of Python `int(str)`: surrounding whitespace is ignored, an
optional single sign is allowed, then a nonempty run of decimal digits;
anything else raises `ValueError`, modelled as `none`. -/
def pyInt? (s : String) : Option Int :=
  match pyStrip s.toList with
  | [] => none
  | '+' :: rest =>
      if rest = [] then none else (digitsVal rest 0).map (fun n => (n : Int))
  | '-' :: rest =>
      if rest = [] then none else (digitsVal rest 0).map (fun n => -(n : Int))
  | cs => (digitsVal cs 0).map (fun n => (n : Int))

/-- One assignment of the try-block of app/utils.py `parse_limit_offset`:
`limit = default_limit if limit_str is None else int(limit_str)` (and the
analogous line for offset); `none` is the `ValueError` of `int`. -/
def parseOrDefault (s? : Option String) (dflt : Int) : Option Int :=
  match s? with
  | none => some dflt
  | some s => pyInt? s

/-- app/utils.py `parse_limit_offset`: a missing limit string defaults to
`default_limit`, a missing offset string to `0`; both strings must parse as
integers, then `1 <= limit <= max_limit` and `offset >= 0` are enforced; any
violation raises `ValueError`, modelled as `Except.error` with the message of
the corresponding `raise`. -/
def parse_limit_offset (limit_str offset_str : Option String)
    (default_limit max_limit : Int) : Except String (Int × Int) :=
  match parseOrDefault limit_str default_limit, parseOrDefault offset_str 0 with
  | some limit, some offset =>
      if ¬ (1 ≤ limit ∧ limit ≤ max_limit) then
        .error "limit out of allowed range"
      else if offset < 0 then
        .error "offset must be non-negative"
      else
        .ok (limit, offset)
  | _, _ => .error "limit and offset must be integers"

/-- app/db.py `run_migrations`: the startup migration executes a single
`CREATE TABLE IF NOT EXISTS pokemon (...)`.  The schema is modelled as the list
of existing table names; create-if-absent adds `"pokemon"` when missing and
does nothing otherwise. -/
def run_migrations (tables : List String) : List String :=
  if "pokemon" ∈ tables then tables else tables ++ ["pokemon"]

/-- app/main.py `on_startup`: the FastAPI startup hook, which runs before any
request is served and just calls `run_migrations`. -/
def on_startup (tables : List String) : List String :=
  run_migrations tables

/-- The write sets of a list of gathered detail results, in loop order: `None`
results and malformed payloads contribute none. -/
def actionsOf (ds : List (Option Details)) : List SaveAction :=
  ds.filterMap (fun od => od.bind actionOf)

/-- Execute a list of write sets on the session state, in order. -/
def applyActions (db : DBState) (acts : List SaveAction) : DBState :=
  acts.foldl applyAction db

/-- The effect of one write set on the `pokemon_types` table alone: delete the
rows of its key, then insert its fresh rows. -/
def deleteInsert (T : Multiset PokemonType) (a : SaveAction) : Multiset PokemonType :=
  T.filter (fun r => r.pokemon_id ≠ a.pid) + ↑a.tys

/-- The keys written by a list of write sets, in order. -/
def pidsOf (acts : List SaveAction) : List Int :=
  acts.map (fun a => a.pid)

/-- The `pokemon_types` rows that survive to the end of the loop: each write
set's fresh rows, except those wiped by a later write set with the same key. -/
def tailTys : List SaveAction → Multiset PokemonType
  | [] => 0
  | a :: rest => (if a.pid ∈ pidsOf rest then 0 else ↑a.tys) + tailTys rest

/-- The last write set with the given key, if any. -/
def lastActionFor : List SaveAction → Int → Option SaveAction
  | [], _ => none
  | a :: rest, k =>
      match lastActionFor rest k with
      | some v => some v
      | none => if a.pid = k then some a else none

/-- Apply the per-key overwrites of a row list to one row, in order. -/
def chainReplace (rows : List Pokemon) (x : Pokemon) : Pokemon :=
  rows.foldl (fun y r => replaceIf r y) x

/-- The last row with the given primary key in a list of upserted rows. -/
def lastWrite : List Pokemon → Int → Option Pokemon
  | [], _ => none
  | r :: rest, k =>
      match lastWrite rest k with
      | some v => some v
      | none => if r.pokemon_id == k then some r else none

/-- A detail write set is internally consistent: its row and each of its type
rows carry its key. -/
def SaveAction.ok (a : SaveAction) : Prop :=
  a.row.pokemon_id = a.pid ∧ ∀ r ∈ a.tys, r.pokemon_id = a.pid

/-- A gathered detail result is either a failed fetch or a payload carrying
both `id` and `name`. -/
def wfDetail : Option Details → Bool
  | none => true
  | some d => d.id.isSome && d.name.isSome

/-- Spec-literal reading used by claim C3: the categories of a detail payload
that carry both a name and a url, read as fields being present (regardless of
emptiness), turned into membership rows for the given record id.  The code
additionally requires both strings to be non-empty (Python truthiness). -/
def specCategoriesWithNameAndUrl (pid : Int) (tys : List TypeEntry) : List PokemonType :=
  tys.filterMap (fun entry =>
    match (entry.type?.getD ⟨none, none⟩).name, (entry.type?.getD ⟨none, none⟩).url with
    | some type_name, some type_url => some ⟨pid, type_name, type_url⟩
    | _, _ => none)

lemma applyDetail_skip (db : DBState) (od : Option Details)
    (h : od.bind actionOf = none) : applyDetail db od = (0, db) := by
  unfold applyDetail
  rw [h]

lemma processDetails_eq (ds : List (Option Details)) (db : DBState) :
    processDetails ds db = ((actionsOf ds).length, applyActions db (actionsOf ds)) := by
  induction ds generalizing db with
  | nil => rfl
  | cons od rest ih =>
      show (let r := applyDetail db od
            let s := processDetails rest r.2
            (r.1 + s.1, s.2))
        = ((actionsOf (od :: rest)).length, applyActions db (actionsOf (od :: rest)))
      cases h : od.bind actionOf with
      | none =>
          simp only [applyDetail_skip db od h, ih db, actionsOf, List.filterMap_cons, h,
            Nat.zero_add]
      | some a =>
          have hd : applyDetail db od = (1, applyAction db a) := by
            unfold applyDetail; rw [h]
          simp only [hd, ih (applyAction db a), actionsOf, List.filterMap_cons, h,
            List.length_cons, applyActions, List.foldl_cons]
          exact Prod.ext (Nat.add_comm 1 _) rfl

lemma length_filterMap_isSome {α β : Type} (f : α → Option β) (l : List α) :
    (l.filterMap f).length = l.countP (fun x => (f x).isSome) := by
  induction l with
  | nil => rfl
  | cons a t ih =>
      cases h : f a <;>
        simp [List.filterMap_cons, h, List.countP_cons, ih, Nat.add_comm]

lemma countP_congr_mem {α : Type} (l : List α) (p q : α → Bool)
    (h : ∀ x ∈ l, p x = q x) : l.countP p = l.countP q := by
  induction l with
  | nil => rfl
  | cons a t ih =>
      simp only [List.countP_cons, h a (by simp),
        ih (fun x hx => h x (List.mem_cons_of_mem _ hx))]

lemma list_map_id_of {α : Type} (l : List α) (f : α → α) (h : ∀ x ∈ l, f x = x) :
    l.map f = l := by
  induction l with
  | nil => rfl
  | cons a t ih =>
      simp only [List.map_cons, h a (by simp),
        ih (fun x hx => h x (List.mem_cons_of_mem _ hx))]

lemma replaceIf_pid (row x : Pokemon) :
    (replaceIf row x).pokemon_id = x.pokemon_id := by
  unfold replaceIf
  split
  · next h => exact h.symm
  · rfl

lemma containsKey_map_replaceIf (P : List Pokemon) (row : Pokemon) (k : Int) :
    containsKey (P.map (replaceIf row)) k = containsKey P k := by
  unfold containsKey
  induction P with
  | nil => rfl
  | cons x t ih => simp [List.any_cons, replaceIf_pid, ih]

lemma containsKey_upsert (P : List Pokemon) (row : Pokemon) (k : Int) :
    containsKey (upsertPokemon P row) k
      = (containsKey P k || (row.pokemon_id == k)) := by
  unfold upsertPokemon
  split
  · next h =>
      rw [containsKey_map_replaceIf]
      cases hbk : (row.pokemon_id == k) with
      | false => simp
      | true =>
          have hk : row.pokemon_id = k := by simpa using hbk
          rw [← hk, h]
          rfl
  · unfold containsKey
    simp [List.any_append]

lemma containsKey_foldl_of (rows : List Pokemon) (P : List Pokemon) (k : Int)
    (h : containsKey P k = true) :
    containsKey (rows.foldl upsertPokemon P) k = true := by
  induction rows generalizing P with
  | nil => exact h
  | cons r rest ih =>
      exact ih (upsertPokemon P r) (by simp [containsKey_upsert, h])

lemma containsKey_foldl_mem (rows : List Pokemon) (P : List Pokemon) :
    ∀ r ∈ rows, containsKey (rows.foldl upsertPokemon P) r.pokemon_id = true := by
  induction rows generalizing P with
  | nil => intro r hr; cases hr
  | cons r0 rest ih =>
      intro r hr
      rcases List.mem_cons.mp hr with h | h
      · subst h
        rw [List.foldl_cons]
        apply containsKey_foldl_of
        simp [containsKey_upsert]
      · exact ih (upsertPokemon P r0) r h

lemma chainReplace_cons (r : Pokemon) (rest : List Pokemon) (x : Pokemon) :
    chainReplace (r :: rest) x = chainReplace rest (replaceIf r x) := rfl

lemma foldl_upsert_of_contains (rows : List Pokemon) (P : List Pokemon)
    (h : ∀ r ∈ rows, containsKey P r.pokemon_id = true) :
    rows.foldl upsertPokemon P = P.map (chainReplace rows) := by
  induction rows generalizing P with
  | nil =>
      rw [List.foldl_nil]
      exact (list_map_id_of P _ (fun x _ => rfl)).symm
  | cons r rest ih =>
      have h0 : containsKey P r.pokemon_id = true := h r (by simp)
      have step : upsertPokemon P r = P.map (replaceIf r) := by
        unfold upsertPokemon; rw [h0]; rfl
      rw [List.foldl_cons, step,
        ih (P.map (replaceIf r))
          (fun r2 hr2 => by
            rw [containsKey_map_replaceIf]
            exact h r2 (List.mem_cons_of_mem _ hr2)),
        List.map_map]
      rfl

lemma chainReplace_eq_lastWrite (rows : List Pokemon) (x : Pokemon) :
    chainReplace rows x = (lastWrite rows x.pokemon_id).getD x := by
  induction rows generalizing x with
  | nil => rfl
  | cons r rest ih =>
      rw [chainReplace_cons, ih (replaceIf r x), replaceIf_pid]
      show _ = (match lastWrite rest x.pokemon_id with
                | some v => some v
                | none => if r.pokemon_id == x.pokemon_id then some r else none).getD x
      cases hlw : lastWrite rest x.pokemon_id with
      | some v => rfl
      | none =>
          unfold replaceIf
          by_cases he : x.pokemon_id = r.pokemon_id
          · simp [he]
          · have : (r.pokemon_id == x.pokemon_id) = false := by
              simpa using fun hc => he hc.symm
            simp [he, this]

lemma lastWrite_append_singleton (as : List Pokemon) (a : Pokemon) (k : Int) :
    lastWrite (as ++ [a]) k
      = if a.pokemon_id == k then some a else lastWrite as k := by
  induction as with
  | nil =>
      show (match (none : Option Pokemon) with
            | some v => some v
            | none => if a.pokemon_id == k then some a else none) = _
      cases a.pokemon_id == k <;> rfl
  | cons r rest ih =>
      show (match lastWrite (rest ++ [a]) k with
            | some v => some v
            | none => if r.pokemon_id == k then some r else none) = _
      rw [ih]
      by_cases hak : (a.pokemon_id == k) = true
      · simp only [if_pos hak]
      · simp only [if_neg hak]
        rfl

lemma containsKey_false_mem (P : List Pokemon) (k : Int)
    (h : containsKey P k = false) :
    ∀ x ∈ P, (x.pokemon_id == k) = false := by
  intro x hx
  by_contra hc
  have hx2 : P.any (fun r => r.pokemon_id == k) = true :=
    List.any_eq_true.mpr ⟨x, hx, by simpa using hc⟩
  rw [containsKey] at h
  rw [h] at hx2
  cases hx2

lemma mem_foldl_upsert (rows : List Pokemon) (P : List Pokemon) :
    ∀ x ∈ rows.foldl upsertPokemon P, (lastWrite rows x.pokemon_id).getD x = x := by
  induction rows using List.reverseRecOn generalizing P with
  | nil => intro x _; rfl
  | append_singleton as a ih =>
      intro x hx
      rw [List.foldl_append, List.foldl_cons, List.foldl_nil] at hx
      rw [lastWrite_append_singleton]
      unfold upsertPokemon at hx
      split at hx
      · next hck =>
          rcases List.mem_map.mp hx with ⟨y, hy, hxy⟩
          by_cases hpe : y.pokemon_id = a.pokemon_id
          · have hxa : x = a := by
              rw [← hxy]; unfold replaceIf; rw [if_pos hpe]
            subst hxa
            rw [if_pos (by simp)]
            rfl
          · have hxy2 : x = y := by
              rw [← hxy]; unfold replaceIf; rw [if_neg hpe]
            subst hxy2
            have : (a.pokemon_id == x.pokemon_id) = false := by
              simpa using fun hc => hpe hc.symm
            rw [if_neg (by simp [this])]
            exact ih P x hy
      · next hck =>
          have hckf : containsKey (as.foldl upsertPokemon P) a.pokemon_id = false :=
            Bool.not_eq_true _ ▸ (by simpa using hck)
          rcases List.mem_append.mp hx with hx1 | hx1
          · have hne := containsKey_false_mem _ _ hckf x hx1
            have : (a.pokemon_id == x.pokemon_id) = false := by
              simp only [beq_eq_false_iff_ne] at hne ⊢
              exact fun hc => hne hc.symm
            rw [if_neg (by simp [this])]
            exact ih P x hx1
          · have hxa : x = a := by simpa using hx1
            subst hxa
            rw [if_pos (by simp)]
            rfl

lemma upsertFold_idem (rows : List Pokemon) (P : List Pokemon) :
    rows.foldl upsertPokemon (rows.foldl upsertPokemon P) = rows.foldl upsertPokemon P := by
  rw [foldl_upsert_of_contains rows _ (containsKey_foldl_mem rows P)]
  apply list_map_id_of
  intro x hx
  rw [chainReplace_eq_lastWrite]
  exact mem_foldl_upsert rows P x hx

lemma applyActions_pokemon (acts : List SaveAction) (db : DBState) :
    (applyActions db acts).pokemon
      = (acts.map (fun a => a.row)).foldl upsertPokemon db.pokemon := by
  induction acts generalizing db with
  | nil => rfl
  | cons a rest ih =>
      rw [applyActions, List.foldl_cons, List.map_cons, List.foldl_cons]
      exact ih (applyAction db a)

lemma applyActions_types (acts : List SaveAction) (db : DBState) :
    (applyActions db acts).pokemon_types
      = acts.foldl deleteInsert db.pokemon_types := by
  induction acts generalizing db with
  | nil => rfl
  | cons a rest ih =>
      rw [applyActions, List.foldl_cons, List.foldl_cons]
      exact ih (applyAction db a)

lemma typeRows_pid (pid : Int) (tys : List TypeEntry) :
    ∀ r ∈ typeRows pid tys, r.pokemon_id = pid := by
  intro r hr
  simp only [typeRows, List.mem_filterMap] at hr
  obtain ⟨entry, -, he⟩ := hr
  split at he
  · split at he
    · cases he
      rfl
    · cases he
  · cases he

lemma actionOf_ok (d : Details) (a : SaveAction) (h : actionOf d = some a) :
    a.ok := by
  unfold actionOf at h
  split at h
  · cases h
    exact ⟨rfl, typeRows_pid _ _⟩
  · cases h

lemma actionOf_tys (d : Details) (a : SaveAction) (h : actionOf d = some a) :
    a.tys = typeRows a.pid (d.types?.getD []) := by
  unfold actionOf at h
  split at h
  · cases h
    rfl
  · cases h

lemma actionsOf_ok (ds : List (Option Details)) :
    ∀ a ∈ actionsOf ds, a.ok := by
  intro a ha
  simp only [actionsOf, List.mem_filterMap] at ha
  obtain ⟨od, -, h⟩ := ha
  cases od with
  | none => cases h
  | some d =>
      rw [Option.some_bind] at h
      exact actionOf_ok d a h

lemma foldl_deleteInsert (acts : List SaveAction) (T : Multiset PokemonType)
    (hok : ∀ a ∈ acts, a.ok) :
    acts.foldl deleteInsert T
      = T.filter (fun r => r.pokemon_id ∉ pidsOf acts) + tailTys acts := by
  induction acts generalizing T with
  | nil =>
      rw [List.foldl_nil, tailTys, add_zero, Multiset.filter_eq_self.mpr]
      intro r _
      simp [pidsOf]
  | cons a rest ih =>
      rw [List.foldl_cons,
        ih (deleteInsert T a) (fun x hx => hok x (List.mem_cons_of_mem _ hx)),
        deleteInsert, Multiset.filter_add, Multiset.filter_filter, tailTys]
      have hfc : T.filter (fun r => r.pokemon_id ∉ pidsOf rest ∧ r.pokemon_id ≠ a.pid)
          = T.filter (fun r => r.pokemon_id ∉ pidsOf (a :: rest)) := by
        apply Multiset.filter_congr
        intro r _
        constructor
        · intro ⟨h1, h2⟩
          simp only [pidsOf, List.map_cons, List.mem_cons, not_or]
          exact ⟨h2, by simpa [pidsOf] using h1⟩
        · intro h1
          simp only [pidsOf, List.map_cons, List.mem_cons, not_or] at h1
          exact ⟨by simpa [pidsOf] using h1.2, h1.1⟩
      rw [hfc]
      have htys : (↑a.tys : Multiset PokemonType).filter
            (fun r => r.pokemon_id ∉ pidsOf rest)
          = if a.pid ∈ pidsOf rest then 0 else ↑a.tys := by
        by_cases hm : a.pid ∈ pidsOf rest
        · rw [if_pos hm, Multiset.filter_eq_nil.mpr]
          intro r hr
          have : r.pokemon_id = a.pid := (hok a (by simp)).2 r (by simpa using hr)
          rw [this]
          simp [hm]
        · rw [if_neg hm, Multiset.filter_eq_self.mpr]
          intro r hr
          have : r.pokemon_id = a.pid := (hok a (by simp)).2 r (by simpa using hr)
          rw [this]
          exact hm
      rw [htys, add_assoc]

lemma tailTys_pid (acts : List SaveAction) (hok : ∀ a ∈ acts, a.ok) :
    ∀ r ∈ tailTys acts, r.pokemon_id ∈ pidsOf acts := by
  induction acts with
  | nil => intro r hr; cases (by simpa [tailTys] using hr : False)
  | cons a rest ih =>
      intro r hr
      rw [tailTys, Multiset.mem_add] at hr
      rcases hr with hr | hr
      · split at hr
        · cases (by simpa using hr : False)
        · have : r.pokemon_id = a.pid := (hok a (by simp)).2 r (by simpa using hr)
          simp [pidsOf, this]
      · have := ih (fun x hx => hok x (List.mem_cons_of_mem _ hx)) r hr
        simp only [pidsOf, List.map_cons, List.mem_cons]
        right
        simpa [pidsOf] using this

lemma filter_pid_foldl (acts : List SaveAction) (T : Multiset PokemonType) (pid : Int)
    (hok : ∀ a ∈ acts, a.ok) :
    (acts.foldl deleteInsert T).filter (fun r => r.pokemon_id = pid)
      = (match lastActionFor acts pid with
         | some a => (↑a.tys : Multiset PokemonType)
         | none => T.filter (fun r => r.pokemon_id = pid)) := by
  induction acts generalizing T with
  | nil => rfl
  | cons a rest ih =>
      rw [List.foldl_cons,
        ih (deleteInsert T a) (fun x hx => hok x (List.mem_cons_of_mem _ hx))]
      show _ = (match (match lastActionFor rest pid with
                       | some v => some v
                       | none => if a.pid = pid then some a else none) with
                | some v => (↑v.tys : Multiset PokemonType)
                | none => T.filter (fun r => r.pokemon_id = pid))
      cases hl : lastActionFor rest pid with
      | some v => rfl
      | none =>
          rw [deleteInsert, Multiset.filter_add, Multiset.filter_filter]
          by_cases hpe : a.pid = pid
          · rw [if_pos hpe]
            have h1 : T.filter (fun r => r.pokemon_id = pid ∧ r.pokemon_id ≠ a.pid)
                = 0 := by
              rw [Multiset.filter_eq_nil.mpr]
              intro r _
              intro ⟨hc1, hc2⟩
              exact hc2 (hc1.trans hpe.symm)
            have h2 : (↑a.tys : Multiset PokemonType).filter
                  (fun r => r.pokemon_id = pid) = ↑a.tys := by
              rw [Multiset.filter_eq_self.mpr]
              intro r hr
              rw [(hok a (by simp)).2 r (by simpa using hr)]
              exact hpe
            rw [h1, h2, zero_add]
          · rw [if_neg hpe]
            have h1 : T.filter (fun r => r.pokemon_id = pid ∧ r.pokemon_id ≠ a.pid)
                = T.filter (fun r => r.pokemon_id = pid) := by
              apply Multiset.filter_congr
              intro r _
              constructor
              · intro hc; exact hc.1
              · intro hc1
                refine ⟨hc1, fun hc => hpe ?_⟩
                rw [← hc]
                exact hc1
            have h2 : (↑a.tys : Multiset PokemonType).filter
                  (fun r => r.pokemon_id = pid) = 0 := by
              rw [Multiset.filter_eq_nil.mpr]
              intro r hr
              rw [(hok a (by simp)).2 r (by simpa using hr)]
              exact hpe
            rw [h1, h2, add_zero]

lemma applyActions_idem (db : DBState) (acts : List SaveAction)
    (hok : ∀ a ∈ acts, a.ok) :
    applyActions (applyActions db acts) acts = applyActions db acts := by
  apply DBState.ext
  · rw [applyActions_pokemon, applyActions_pokemon]
    exact upsertFold_idem _ _
  · rw [applyActions_types, applyActions_types,
      foldl_deleteInsert acts _ hok, foldl_deleteInsert acts _ hok,
      Multiset.filter_add, Multiset.filter_filter]
    have h1 : db.pokemon_types.filter
          (fun r => r.pokemon_id ∉ pidsOf acts ∧ r.pokemon_id ∉ pidsOf acts)
        = db.pokemon_types.filter (fun r => r.pokemon_id ∉ pidsOf acts) := by
      apply Multiset.filter_congr
      intro r _
      constructor
      · intro hc; exact hc.1
      · intro hc; exact ⟨hc, hc⟩
    have h2 : (tailTys acts).filter (fun r => r.pokemon_id ∉ pidsOf acts) = 0 := by
      rw [Multiset.filter_eq_nil.mpr]
      intro r hr
      intro hc
      exact hc (tailTys_pid acts hok r hr)
    rw [h1, h2, add_zero]

lemma save_pokemon_listFail (limit offset : Int) (listNet : Int → Int → HttpOutcome ListData)
    (detailNet : String → HttpOutcome Details) (commitOk : Bool) (db : DBState) (e : String)
    (h : fetch_pokemon_list listNet limit offset = .error e) :
    save_pokemon limit offset listNet detailNet commitOk db
      = (.error (.httpException 500), db) := by
  unfold save_pokemon
  rw [h]

lemma save_pokemon_okList (limit offset : Int) (listNet : Int → Int → HttpOutcome ListData)
    (detailNet : String → HttpOutcome Details) (commitOk : Bool) (db : DBState) (ld : ListData)
    (h : fetch_pokemon_list listNet limit offset = .ok ld) :
    save_pokemon limit offset listNet detailNet commitOk db
      = (if (ld.results?.getD []).isEmpty then
           (.ok ⟨"Successfully saved Pokemon to database", 0, offset, limit⟩, db)
         else if commitOk then
           (.ok ⟨"Successfully saved Pokemon to database",
                 (processDetails (gatherDetails detailNet (ld.results?.getD [])) db).1,
                 offset, limit⟩,
            (processDetails (gatherDetails detailNet (ld.results?.getD [])) db).2)
         else (.error .persistenceFailure, db)) := by
  unfold save_pokemon
  rw [h]

lemma isEmpty_false_of_ne_nil {α : Type} (l : List α) (h : l ≠ []) :
    l.isEmpty = false := by
  cases l with
  | nil => exact absurd rfl h
  | cons a t => rfl

lemma actionOf_none (d : Details) (h : d.id = none ∨ d.name = none) :
    actionOf d = none := by
  unfold actionOf
  rcases h with h | h
  · rw [h]
  · rw [h]
    cases d.id <;> rfl

lemma countP_isSome_add_isNone {α : Type} (l : List (Option α)) :
    l.countP (fun od => od.isSome) + l.countP (fun od => od.isNone) = l.length := by
  induction l with
  | nil => rfl
  | cons od t ih =>
      cases od <;> simp [List.countP_cons, ih] <;> try omega

/-- Claim C1, counterexample: with a failing list-page fetch, the run surfaces
`HTTPException(status_code=500)`, not a 502 bad-gateway response as the claim
states (app/main.py line 98 hard-codes 500 in `save_pokemon`; only the debug
endpoint uses 502). -/
theorem C1_counterexample :
    save_pokemon 20 0 (fun _ _ => HttpOutcome.failure) (fun _ => HttpOutcome.failure)
        true ⟨[], 0⟩
      = (Except.error (RunError.httpException 500), (⟨[], 0⟩ : DBState))
    ∧ RunError.httpException 500 ≠ RunError.httpException 502 :=
  ⟨rfl, by decide⟩

/-- Claim C1 (amended): for every reconciliation run in which the list-page
fetch fails (transport error or non-2xx status), the sync endpoint fails the
whole run, persists nothing (the store is returned unchanged, no commit
happens), and surfaces the failure to the caller as an HTTP 500 server-error
response (not 502). -/
theorem C1_list_failure_fails_run (limit offset : Int)
    (listNet : Int → Int → HttpOutcome ListData)
    (detailNet : String → HttpOutcome Details) (commitOk : Bool) (db : DBState)
    (h : listNet limit offset = HttpOutcome.failure ∨
        ∃ s b, listNet limit offset = HttpOutcome.response s b ∧ is2xx s = false) :
    save_pokemon limit offset listNet detailNet commitOk db
      = (.error (.httpException 500), db) := by
  have he : ∃ e, fetch_pokemon_list listNet limit offset = .error e := by
    rcases h with h | ⟨s, b, h, hs⟩
    · refine ⟨"httpx transport error", ?_⟩
      unfold fetch_pokemon_list
      rw [h]
    · refine ⟨"HTTP status error", ?_⟩
      unfold fetch_pokemon_list
      rw [h]
      simp [hs]
  obtain ⟨e, he⟩ := he
  exact save_pokemon_listFail _ _ _ _ _ _ _ he

/-- Witness for claim C1's amended theorem at a concrete failing transport. -/
theorem C1_witness :
    save_pokemon 20 0 (fun _ _ => HttpOutcome.failure) (fun _ => HttpOutcome.failure)
        true ⟨[], 0⟩
      = (.error (.httpException 500), (⟨[], 0⟩ : DBState)) :=
  C1_list_failure_fails_run 20 0 (fun _ _ => HttpOutcome.failure)
    (fun _ => HttpOutcome.failure) true ⟨[], 0⟩ (Or.inl rfl)

/-- Claim C4: a detail payload whose `id` or `name` field is missing is dropped
silently: the loop leaves both the saved count and the session state exactly as
they were, and a run over a successfully fetched page still returns a success
response. -/
theorem C4_malformed_skip (d : Details) (h : d.id = none ∨ d.name = none) :
    (∀ pre post : List (Option Details), ∀ db : DBState,
        processDetails (pre ++ some d :: post) db = processDetails (pre ++ post) db) ∧
    (∀ limit offset : Int, ∀ listNet : Int → Int → HttpOutcome ListData,
        ∀ detailNet : String → HttpOutcome Details, ∀ db : DBState, ∀ ld : ListData,
        fetch_pokemon_list listNet limit offset = .ok ld →
        ∃ r, (save_pokemon limit offset listNet detailNet true db).1 = .ok r) := by
  constructor
  · intro pre post db
    rw [processDetails_eq, processDetails_eq]
    have ha : actionsOf (pre ++ some d :: post) = actionsOf (pre ++ post) := by
      rw [actionsOf, actionsOf, List.filterMap_append, List.filterMap_append]
      congr 1
      simp only [List.filterMap_cons, Option.some_bind, actionOf_none d h]
    rw [ha]
  · intro limit offset listNet detailNet db ld hf
    rw [save_pokemon_okList _ _ _ _ _ _ _ hf]
    by_cases he : (ld.results?.getD []).isEmpty
    · rw [if_pos he]
      exact ⟨_, rfl⟩
    · rw [if_neg he, if_pos rfl]
      exact ⟨_, rfl⟩

/-- Witness for claim C4 at a concrete payload missing `id`. -/
theorem C4_witness :
    processDetails [some ⟨none, some "x", none, none, none, none, none, none⟩] ⟨[], 0⟩
        = processDetails [] ⟨[], 0⟩
      ∧ ∃ r, (save_pokemon 1 0 (fun _ _ => HttpOutcome.response 200 ⟨some [⟨some "u"⟩]⟩)
            (fun _ => HttpOutcome.response 200 ⟨none, some "x", none, none, none, none, none, none⟩)
            true ⟨[], 0⟩).1 = .ok r := by
  have hmain := C4_malformed_skip ⟨none, some "x", none, none, none, none, none, none⟩
    (Or.inl rfl)
  exact ⟨hmain.1 [] [] ⟨[], 0⟩,
    hmain.2 1 0 (fun _ _ => HttpOutcome.response 200 ⟨some [⟨some "u"⟩]⟩)
      (fun _ => HttpOutcome.response 200 ⟨none, some "x", none, none, none, none, none, none⟩)
      ⟨[], 0⟩ ⟨some [⟨some "u"⟩]⟩ rfl⟩

/-- Claim C5: the batch is persisted by a single commit after all records are
processed: when the commit fails, the run fails with the persistence error and
the visible store is exactly the pre-run store (none of the processed records
appear); when the commit succeeds, the entire processed batch is the visible
store. -/
theorem C5_atomic_commit (limit offset : Int)
    (listNet : Int → Int → HttpOutcome ListData)
    (detailNet : String → HttpOutcome Details) (db : DBState) (ld : ListData)
    (hfetch : fetch_pokemon_list listNet limit offset = .ok ld)
    (hne : ld.results?.getD [] ≠ []) :
    save_pokemon limit offset listNet detailNet false db
      = (.error .persistenceFailure, db) ∧
    save_pokemon limit offset listNet detailNet true db
      = (.ok ⟨"Successfully saved Pokemon to database",
              (processDetails (gatherDetails detailNet (ld.results?.getD [])) db).1,
              offset, limit⟩,
         (processDetails (gatherDetails detailNet (ld.results?.getD [])) db).2) := by
  have he := isEmpty_false_of_ne_nil _ hne
  constructor
  · rw [save_pokemon_okList _ _ _ _ _ _ _ hfetch, he]
    rfl
  · rw [save_pokemon_okList _ _ _ _ _ _ _ hfetch, he]
    rfl

/-- Witness for claim C5 at a concrete one-entry page with three valid fields:
the failed-commit run leaves the empty store empty. -/
theorem C5_witness :
    save_pokemon 1 0 (fun _ _ => HttpOutcome.response 200 ⟨some [⟨some "u"⟩]⟩)
        (fun _ => HttpOutcome.response 200
          ⟨some 7, some "pikachu", some 112, none, none, none, none, none⟩)
        false ⟨[], 0⟩
      = (.error .persistenceFailure, (⟨[], 0⟩ : DBState)) :=
  (C5_atomic_commit 1 0 (fun _ _ => HttpOutcome.response 200 ⟨some [⟨some "u"⟩]⟩)
    (fun _ => HttpOutcome.response 200
      ⟨some 7, some "pikachu", some 112, none, none, none, none, none⟩)
    ⟨[], 0⟩ ⟨some [⟨some "u"⟩]⟩ rfl (by decide)).1

/-- Claim C6: a fetched page with zero entries makes the run return a summary
with `saved_count = 0` immediately, without error, independently of the detail
oracle (no detail fetch is issued) and of whether a commit would succeed (the
store is returned untouched, no commit happens). -/
theorem C6_empty_page (limit offset : Int)
    (listNet : Int → Int → HttpOutcome ListData)
    (detailNet : String → HttpOutcome Details) (commitOk : Bool)
    (db : DBState) (ld : ListData)
    (hfetch : fetch_pokemon_list listNet limit offset = .ok ld)
    (hempty : ld.results?.getD [] = []) :
    save_pokemon limit offset listNet detailNet commitOk db
      = (.ok ⟨"Successfully saved Pokemon to database", 0, offset, limit⟩, db) := by
  rw [save_pokemon_okList _ _ _ _ _ _ _ hfetch, hempty]
  rfl

/-- Witness for claim C6 at a concrete empty page, with a failing detail oracle
and a failing commit, neither of which is reached. -/
theorem C6_witness :
    save_pokemon 20 500 (fun _ _ => HttpOutcome.response 200 ⟨some []⟩)
        (fun _ => HttpOutcome.failure) false ⟨[], 0⟩
      = (.ok ⟨"Successfully saved Pokemon to database", 0, 500, 20⟩, (⟨[], 0⟩ : DBState)) :=
  C6_empty_page 20 500 (fun _ _ => HttpOutcome.response 200 ⟨some []⟩)
    (fun _ => HttpOutcome.failure) false ⟨[], 0⟩ ⟨some []⟩ rfl rfl

/-- Claim C9 is a code bug: the startup bootstrap `run_migrations` creates only
the primary `pokemon` table (`CREATE TABLE IF NOT EXISTS pokemon`), never the
child `pokemon_types` table that `save_pokemon` inserts into, even though the
claim (and the rest of the code) requires both; the create is idempotent.  This
theorem evaluates the bootstrap: after startup on an empty schema the primary
table exists, the child table does not, and rerunning the migration is a
no-op. -/
theorem C9_migrations_only_pokemon :
    "pokemon" ∈ on_startup [] ∧ "pokemon_types" ∉ on_startup []
      ∧ run_migrations (run_migrations []) = run_migrations [] := by
  decide

lemma save_pokemon_nonempty (limit offset : Int)
    (listNet : Int → Int → HttpOutcome ListData)
    (detailNet : String → HttpOutcome Details) (db : DBState) (ld : ListData)
    (h : fetch_pokemon_list listNet limit offset = .ok ld)
    (hne : ld.results?.getD [] ≠ []) :
    save_pokemon limit offset listNet detailNet true db
      = (.ok ⟨"Successfully saved Pokemon to database",
              (processDetails (gatherDetails detailNet (ld.results?.getD [])) db).1,
              offset, limit⟩,
         (processDetails (gatherDetails detailNet (ld.results?.getD [])) db).2) := by
  rw [save_pokemon_okList _ _ _ _ _ _ _ h, isEmpty_false_of_ne_nil _ hne]
  rfl

lemma countP_eq_length_of {α : Type} (l : List α) (p : α → Bool)
    (h : ∀ x ∈ l, p x = true) : l.countP p = l.length := by
  induction l with
  | nil => rfl
  | cons a t ih =>
      simp [List.countP_cons, h a (by simp),
        ih (fun x hx => h x (List.mem_cons_of_mem _ hx))]

/-- Claim C2: when the list fetch succeeds but some detail fetches fail
(transport error or non-2xx status), each failed fetch returns the `None`
sentinel instead of raising, the run still succeeds, and `saved_count`
excludes exactly the failed items: on a page whose entries all carry urls and
whose successfully fetched payloads are all well formed, `saved_count` is the
page length minus the number of failed fetches (so 5 entries with 1 failure
give 4). -/
theorem C2_partial_failure (limit offset : Int)
    (listNet : Int → Int → HttpOutcome ListData)
    (detailNet : String → HttpOutcome Details) (db : DBState)
    (ld : ListData) (rs : List ListItem) (k : Nat)
    (hfetch : fetch_pokemon_list listNet limit offset = .ok ld)
    (hrs : ld.results?.getD [] = rs)
    (hne : rs ≠ [])
    (hurl : ∀ i ∈ rs, i.url?.isSome = true)
    (hgood : (gatherDetails detailNet rs).all wfDetail = true)
    (hfail : (gatherDetails detailNet rs).countP (fun od => od.isNone) = k) :
    (∀ url, (detailNet url = HttpOutcome.failure ∨
        ∃ s b, detailNet url = HttpOutcome.response s b ∧ is2xx s = false) →
      fetch_pokemon_details detailNet url = none) ∧
    (save_pokemon limit offset listNet detailNet true db).1
      = .ok ⟨"Successfully saved Pokemon to database", rs.length - k, offset, limit⟩ := by
  constructor
  · intro url h
    rcases h with h | ⟨s, b, h, hs⟩
    · unfold fetch_pokemon_details
      rw [h]
    · unfold fetch_pokemon_details
      rw [h]
      simp [hs]
  · have hcnt : (processDetails (gatherDetails detailNet rs) db).1 = rs.length - k := by
      rw [processDetails_eq]
      show (actionsOf (gatherDetails detailNet rs)).length = rs.length - k
      rw [actionsOf, length_filterMap_isSome]
      have h2 : (gatherDetails detailNet rs).countP (fun od => (od.bind actionOf).isSome)
          = (gatherDetails detailNet rs).countP (fun od => od.isSome) := by
        apply countP_congr_mem
        intro od hod
        cases od with
        | none => rfl
        | some d =>
            have hw := List.all_eq_true.mp hgood _ hod
            simp only [wfDetail] at hw
            rw [Bool.and_eq_true] at hw
            obtain ⟨hi, hn⟩ := hw
            obtain ⟨pid, hpid⟩ := Option.isSome_iff_exists.mp hi
            obtain ⟨nm, hnm⟩ := Option.isSome_iff_exists.mp hn
            rw [Option.some_bind]
            unfold actionOf
            rw [hpid, hnm]
            rfl
      have hlen : (gatherDetails detailNet rs).length = rs.length := by
        rw [gatherDetails, length_filterMap_isSome]
        have h1 : rs.countP (fun i => (i.url?.map (fetch_pokemon_details detailNet)).isSome)
            = rs.countP (fun i => i.url?.isSome) :=
          countP_congr_mem _ _ _ (fun i _ => by cases i.url? <;> rfl)
        rw [h1]
        exact countP_eq_length_of _ _ hurl
      have h3 := countP_isSome_add_isNone (gatherDetails detailNet rs)
      rw [h2]
      omega
    have hne2 : ld.results?.getD [] ≠ [] := by rw [hrs]; exact hne
    rw [save_pokemon_nonempty _ _ _ _ _ _ hfetch hne2]
    show Except.ok _ = _
    rw [hrs, hcnt]

/-- Witness for claim C2: a page of 5 entries where exactly the third detail
fetch fails yields a successful run with `saved_count = 4`. -/
theorem C2_witness :
    (save_pokemon 5 0
        (fun _ _ => HttpOutcome.response 200
          ⟨some [⟨some "u1"⟩, ⟨some "u2"⟩, ⟨some "u3"⟩, ⟨some "u4"⟩, ⟨some "u5"⟩]⟩)
        (fun u => if u = "u3" then HttpOutcome.failure
          else HttpOutcome.response 200 ⟨some 1, some "a", none, none, none, none, none, none⟩)
        true ⟨[], 0⟩).1
      = .ok ⟨"Successfully saved Pokemon to database", 4, 0, 5⟩ :=
  (C2_partial_failure 5 0
    (fun _ _ => HttpOutcome.response 200
      ⟨some [⟨some "u1"⟩, ⟨some "u2"⟩, ⟨some "u3"⟩, ⟨some "u4"⟩, ⟨some "u5"⟩]⟩)
    (fun u => if u = "u3" then HttpOutcome.failure
      else HttpOutcome.response 200 ⟨some 1, some "a", none, none, none, none, none, none⟩)
    ⟨[], 0⟩
    ⟨some [⟨some "u1"⟩, ⟨some "u2"⟩, ⟨some "u3"⟩, ⟨some "u4"⟩, ⟨some "u5"⟩]⟩
    [⟨some "u1"⟩, ⟨some "u2"⟩, ⟨some "u3"⟩, ⟨some "u4"⟩, ⟨some "u5"⟩] 1
    rfl rfl (by decide) (by decide) (by decide) (by decide)).2

set_option maxHeartbeats 2000000 in
/-- Claim C3, counterexample: a detail payload whose single category carries a
name (the empty string) and a url is, as the claim reads, a category "with both
a name and a url", yet the run inserts no membership row for it, because the
code tests Python truthiness (`if type_name and type_url:`) and the empty
string is falsy.  After the run the record's membership set is empty while the
spec-literal category set is nonempty. -/
theorem C3_counterexample :
    ((save_pokemon 1 0 (fun _ _ => HttpOutcome.response 200 ⟨some [⟨some "u"⟩]⟩)
        (fun _ => HttpOutcome.response 200
          ⟨some 1, some "a", none, none, none, none, none,
           some [⟨some ⟨some "", some "x"⟩⟩]⟩)
        true ⟨[], 0⟩).2.pokemon_types.filter (fun r => r.pokemon_id = 1)) = 0
    ∧ specCategoriesWithNameAndUrl 1 [⟨some ⟨some "", some "x"⟩⟩] = [⟨1, "", "x"⟩]
    ∧ ¬ (((save_pokemon 1 0 (fun _ _ => HttpOutcome.response 200 ⟨some [⟨some "u"⟩]⟩)
        (fun _ => HttpOutcome.response 200
          ⟨some 1, some "a", none, none, none, none, none,
           some [⟨some ⟨some "", some "x"⟩⟩]⟩)
        true ⟨[], 0⟩).2.pokemon_types.filter (fun r => r.pokemon_id = 1))
      = ↑(specCategoriesWithNameAndUrl 1 [⟨some ⟨some "", some "x"⟩⟩])) := by
  refine ⟨rfl, rfl, ?_⟩
  intro hc
  have hc2 : (0 : Multiset PokemonType)
      = ↑(specCategoriesWithNameAndUrl 1 [⟨some ⟨some "", some "x"⟩⟩]) := hc
  have hc3 : (0 : Multiset PokemonType) = ↑([⟨1, "", "x"⟩] : List PokemonType) := hc2
  exact absurd (congrArg Multiset.card hc3) (by decide)

/-- Claim C3 (amended): for every record id reconciled in a run, the membership
rows for that id present after the run are exactly the rows derived from that
run's detail payload for the id — the categories carrying both a non-empty name
and a non-empty url — regardless of what the store held for that id before (the
existing rows are deleted and the fresh set inserted): if the upstream set
shrinks from two categories to one, only that one remains. -/
theorem C3_replace_not_merge (limit offset : Int)
    (listNet : Int → Int → HttpOutcome ListData)
    (detailNet : String → HttpOutcome Details) (db : DBState)
    (ld : ListData) (rs : List ListItem) (pid : Int) (d : Details) (a : SaveAction)
    (hfetch : fetch_pokemon_list listNet limit offset = .ok ld)
    (hrs : ld.results?.getD [] = rs)
    (hne : rs ≠ [])
    (ha : actionOf d = some a)
    (hpid : a.pid = pid)
    (hlast : lastActionFor (actionsOf (gatherDetails detailNet rs)) pid = some a) :
    ((save_pokemon limit offset listNet detailNet true db).2.pokemon_types.filter
        (fun r => r.pokemon_id = pid))
      = ↑(typeRows pid (d.types?.getD [])) := by
  have hne2 : ld.results?.getD [] ≠ [] := by rw [hrs]; exact hne
  rw [save_pokemon_nonempty _ _ _ _ _ _ hfetch hne2]
  show ((processDetails (gatherDetails detailNet (ld.results?.getD [])) db).2.pokemon_types.filter
      (fun r => r.pokemon_id = pid)) = _
  rw [hrs, processDetails_eq]
  show ((applyActions db (actionsOf (gatherDetails detailNet rs))).pokemon_types.filter
      (fun r => r.pokemon_id = pid)) = _
  rw [applyActions_types, filter_pid_foldl _ _ _ (actionsOf_ok _), hlast]
  show (↑a.tys : Multiset PokemonType) = _
  rw [actionOf_tys d a ha, hpid]

set_option maxHeartbeats 2000000 in
/-- Witness for claim C3's amended theorem: a store already holding a stale
membership B for record 1 ends the run with exactly the fresh membership A. -/
theorem C3_witness :
    ((save_pokemon 1 0 (fun _ _ => HttpOutcome.response 200 ⟨some [⟨some "u"⟩]⟩)
        (fun _ => HttpOutcome.response 200
          ⟨some 1, some "bulbasaur", none, none, none, none, none,
           some [⟨some ⟨some "A", some "ua"⟩⟩]⟩)
        true ⟨[⟨1, "old", none, none, none, none, none⟩], {⟨1, "B", "ub"⟩}⟩).2.pokemon_types.filter
        (fun r => r.pokemon_id = 1))
      = ↑(typeRows 1 [⟨some ⟨some "A", some "ua"⟩⟩]) :=
  C3_replace_not_merge 1 0
    (fun _ _ => HttpOutcome.response 200 ⟨some [⟨some "u"⟩]⟩)
    (fun _ => HttpOutcome.response 200
      ⟨some 1, some "bulbasaur", none, none, none, none, none,
       some [⟨some ⟨some "A", some "ua"⟩⟩]⟩)
    ⟨[⟨1, "old", none, none, none, none, none⟩], {⟨1, "B", "ub"⟩}⟩
    ⟨some [⟨some "u"⟩]⟩ [⟨some "u"⟩] 1
    ⟨some 1, some "bulbasaur", none, none, none, none, none,
     some [⟨some ⟨some "A", some "ua"⟩⟩]⟩
    ⟨1, ⟨1, "bulbasaur", none, none, none, none, none⟩, [⟨1, "A", "ua"⟩]⟩
    rfl rfl (by decide) (by decide) rfl (by decide)

/-- Claim C7: for valid parameters (limit in [1,100], offset nonnegative), a
run either returns a summary whose `saved_count` is at most the number of
entries of the fetched page that carry a detail url — hence at most the page
length, entries without a url never being counted — or fails with exactly one
of the two defined error kinds (the HTTP 500 upstream failure or the
persistence failure). -/
theorem C7_run_contract (limit offset : Int)
    (h1 : 1 ≤ limit) (h2 : limit ≤ 100) (h3 : 0 ≤ offset)
    (listNet : Int → Int → HttpOutcome ListData)
    (detailNet : String → HttpOutcome Details) (commitOk : Bool) (db : DBState) :
    (∀ r ld, fetch_pokemon_list listNet limit offset = .ok ld →
        (save_pokemon limit offset listNet detailNet commitOk db).1 = .ok r →
        r.saved_count ≤ (ld.results?.getD []).countP (fun i => i.url?.isSome)
          ∧ r.saved_count ≤ (ld.results?.getD []).length) ∧
    (∀ e, (save_pokemon limit offset listNet detailNet commitOk db).1 = .error e →
        e = .httpException 500 ∨ e = .persistenceFailure) := by
  constructor
  · intro r ld hf hr
    rw [save_pokemon_okList _ _ _ _ _ _ _ hf] at hr
    by_cases he : (ld.results?.getD []).isEmpty
    · rw [if_pos he] at hr
      have hr2 : Except.ok (⟨"Successfully saved Pokemon to database",
          0, offset, limit⟩ : SyncResponse) = Except.ok r := hr
      injection hr2 with h4
      rw [← h4]
      exact ⟨Nat.zero_le _, Nat.zero_le _⟩
    · rw [if_neg he] at hr
      cases commitOk with
      | false =>
          rw [if_neg (by simp)] at hr
          exact absurd hr (by simp)
      | true =>
          rw [if_pos rfl] at hr
          have hr2 : Except.ok (⟨"Successfully saved Pokemon to database",
              (processDetails (gatherDetails detailNet (ld.results?.getD [])) db).1,
              offset, limit⟩ : SyncResponse) = Except.ok r := hr
          injection hr2 with h4
          rw [← h4]
          show (processDetails (gatherDetails detailNet (ld.results?.getD [])) db).1 ≤ _
            ∧ (processDetails (gatherDetails detailNet (ld.results?.getD [])) db).1 ≤ _
          rw [processDetails_eq]
          show (actionsOf (gatherDetails detailNet (ld.results?.getD []))).length ≤ _
            ∧ (actionsOf (gatherDetails detailNet (ld.results?.getD []))).length ≤ _
          have hb1 : (actionsOf (gatherDetails detailNet (ld.results?.getD []))).length
              ≤ (gatherDetails detailNet (ld.results?.getD [])).length :=
            List.length_filterMap_le _ _
          have hb2 : (gatherDetails detailNet (ld.results?.getD [])).length
              = (ld.results?.getD []).countP (fun i => i.url?.isSome) := by
            rw [gatherDetails, length_filterMap_isSome]
            exact countP_congr_mem _ _ _ (fun i _ => by cases i.url? <;> rfl)
          have hb3 : (ld.results?.getD []).countP (fun i => i.url?.isSome)
              ≤ (ld.results?.getD []).length := List.countP_le_length _
          constructor
          · rw [← hb2]
            exact hb1
          · rw [← hb2] at hb3
            exact Nat.le_trans hb1 hb3
  · intro e he2
    cases hfe : fetch_pokemon_list listNet limit offset with
    | error msg =>
        rw [save_pokemon_listFail _ _ _ _ _ _ _ hfe] at he2
        have h4 : Except.error (RunError.httpException 500)
            = (Except.error e : Except RunError SyncResponse) := he2
        injection h4 with h5
        exact Or.inl h5.symm
    | ok ld =>
        rw [save_pokemon_okList _ _ _ _ _ _ _ hfe] at he2
        by_cases he : (ld.results?.getD []).isEmpty
        · rw [if_pos he] at he2
          exact absurd he2 (by simp)
        · rw [if_neg he] at he2
          cases commitOk with
          | true =>
              rw [if_pos rfl] at he2
              exact absurd he2 (by simp)
          | false =>
              rw [if_neg (by simp)] at he2
              have h4 : Except.error RunError.persistenceFailure
                  = (Except.error e : Except RunError SyncResponse) := he2
              injection h4 with h5
              exact Or.inr h5.symm

/-- Witness for claim C7 at a concrete one-entry page whose single detail
fetch fails: the returned summary counts zero saves, bounded by the page. -/
theorem C7_witness :
    (⟨"Successfully saved Pokemon to database", 0, 0, 20⟩ : SyncResponse).saved_count
        ≤ ([⟨some "u"⟩] : List ListItem).countP (fun i => i.url?.isSome)
      ∧ (⟨"Successfully saved Pokemon to database", 0, 0, 20⟩ : SyncResponse).saved_count
        ≤ ([⟨some "u"⟩] : List ListItem).length :=
  (C7_run_contract 20 0 (by decide) (by decide) (by decide)
      (fun _ _ => HttpOutcome.response 200 ⟨some [⟨some "u"⟩]⟩)
      (fun _ => HttpOutcome.failure) true ⟨[], 0⟩).1
    ⟨"Successfully saved Pokemon to database", 0, 0, 20⟩ ⟨some [⟨some "u"⟩]⟩ rfl rfl

/-- Claim C8: running the reconciliation a second time against an unchanged
upstream (same list and detail oracles) and a successfully committed first run
returns the same summary and leaves the persisted state exactly as the first
run left it: the primary-key upsert overwrites each row with the same values
and the child rows are deleted and rewritten to the same set. -/
theorem C8_idempotent (limit offset : Int)
    (listNet : Int → Int → HttpOutcome ListData)
    (detailNet : String → HttpOutcome Details) (db db1 : DBState) (r1 : SyncResponse)
    (h : save_pokemon limit offset listNet detailNet true db = (.ok r1, db1)) :
    save_pokemon limit offset listNet detailNet true db1 = (.ok r1, db1) := by
  cases hf : fetch_pokemon_list listNet limit offset with
  | error e =>
      rw [save_pokemon_listFail _ _ _ _ _ _ _ hf] at h
      have h1 := congrArg Prod.fst h
      simp at h1
  | ok ld =>
      by_cases he : (ld.results?.getD []).isEmpty = true
      · rw [save_pokemon_okList _ _ _ _ _ _ _ hf, if_pos he] at h
        rw [save_pokemon_okList _ _ _ _ _ _ _ hf, if_pos he]
        rw [Prod.ext_iff] at h
        obtain ⟨h1, h2⟩ := h
        rw [Prod.ext_iff]
        exact ⟨h1, rfl⟩
      · have hne : ld.results?.getD [] ≠ [] := by
          intro hc
          rw [hc] at he
          exact he rfl
        rw [save_pokemon_nonempty _ _ _ _ _ _ hf hne] at h
        rw [save_pokemon_nonempty _ _ _ _ _ _ hf hne]
        rw [Prod.ext_iff] at h
        obtain ⟨h1, h2⟩ := h
        have h2s : (processDetails (gatherDetails detailNet (ld.results?.getD [])) db).2
            = db1 := h2
        subst h2s
        rw [Prod.ext_iff]
        constructor
        · show Except.ok _ = _
      
        
          have hc : (processDetails (gatherDetails detailNet (ld.results?.getD []))
                ((processDetails (gatherDetails detailNet (ld.results?.getD [])) db).2)).1
              = (processDetails (gatherDetails detailNet (ld.results?.getD [])) db).1 := by
            rw [processDetails_eq, processDetails_eq]
          rw [hc]
          exact h1
        · show (processDetails (gatherDetails detailNet (ld.results?.getD []))
              ((processDetails (gatherDetails detailNet (ld.results?.getD [])) db).2)).2
            = (processDetails (gatherDetails detailNet (ld.results?.getD [])) db).2
          rw [processDetails_eq, processDetails_eq]
          show applyActions
              (applyActions db (actionsOf (gatherDetails detailNet (ld.results?.getD []))))
              (actionsOf (gatherDetails detailNet (ld.results?.getD [])))
            = applyActions db (actionsOf (gatherDetails detailNet (ld.results?.getD [])))
          exact applyActions_idem db _ (actionsOf_ok _)

/-- Witness for claim C8: rerunning a concrete successfully committed one-entry
reconciliation returns the same summary and the same store. -/
theorem C8_witness :
    save_pokemon 1 0 (fun _ _ => HttpOutcome.response 200 ⟨some [⟨some "u"⟩]⟩)
        (fun _ => HttpOutcome.response 200
          ⟨some 1, some "bulbasaur", some 64, some 7, some 1, some 69, some "enc",
           some [⟨some ⟨some "grass", some "ug"⟩⟩]⟩)
        true ⟨[⟨1, "bulbasaur", some 64, some 7, some 1, some 69, some "enc"⟩],
              ↑([⟨1, "grass", "ug"⟩] : List PokemonType)⟩
      = (.ok ⟨"Successfully saved Pokemon to database", 1, 0, 1⟩,
         ⟨[⟨1, "bulbasaur", some 64, some 7, some 1, some 69, some "enc"⟩],
          ↑([⟨1, "grass", "ug"⟩] : List PokemonType)⟩) :=
  C8_idempotent 1 0 (fun _ _ => HttpOutcome.response 200 ⟨some [⟨some "u"⟩]⟩)
    (fun _ => HttpOutcome.response 200
      ⟨some 1, some "bulbasaur", some 64, some 7, some 1, some 69, some "enc",
       some [⟨some ⟨some "grass", some "ug"⟩⟩]⟩)
    ⟨[], 0⟩
    ⟨[⟨1, "bulbasaur", some 64, some 7, some 1, some 69, some "enc"⟩],
     ↑([⟨1, "grass", "ug"⟩] : List PokemonType)⟩
    ⟨"Successfully saved Pokemon to database", 1, 0, 1⟩
    rfl

lemma parse_limit_offset_ok (ls os : Option String) (dl ml l o : Int)
    (h : parse_limit_offset ls os dl ml = .ok (l, o)) :
    parseOrDefault ls dl = some l ∧ parseOrDefault os 0 = some o
      ∧ 1 ≤ l ∧ l ≤ ml ∧ 0 ≤ o := by
  unfold parse_limit_offset at h
  cases hl : parseOrDefault ls dl with
  | none =>
      rw [hl] at h
      cases ho : parseOrDefault os 0 <;> rw [ho] at h <;> simp at h
  | some la =>
      rw [hl] at h
      cases ho : parseOrDefault os 0 with
      | none =>
          rw [ho] at h
          simp at h
      | some oa =>
          rw [ho] at h
          have h2 : (if ¬ (1 ≤ la ∧ la ≤ ml) then
                (Except.error "limit out of allowed range" : Except String (Int × Int))
              else if oa < 0 then Except.error "offset must be non-negative"
              else Except.ok (la, oa)) = Except.ok (l, o) := h
          split at h2
          · simp at h2
          · next hc1 =>
              split at h2
              · simp at h2
              · next hc2 =>
                  injection h2 with hp
                  injection hp with hp1 hp2
                  subst hp1
                  subst hp2
                  rw [not_not] at hc1
                  refine ⟨rfl, rfl, hc1.1, hc1.2, ?_⟩
                  exact Int.not_lt.mp hc2

/-- Claim C10: in `parse_limit_offset`, a missing limit string yields
`default_limit` and a missing offset string yields `0`; for every input the
function either returns a pair `(limit, offset)` satisfying
`1 <= limit <= max_limit` and `offset >= 0`, or raises `ValueError` — it never
returns an out-of-range pair. -/
theorem C10_parse_limit_offset (limit_str offset_str : Option String)
    (default_limit max_limit : Int) :
    (∀ l o, parse_limit_offset limit_str offset_str default_limit max_limit = .ok (l, o) →
        1 ≤ l ∧ l ≤ max_limit ∧ 0 ≤ o) ∧
    (∀ l o, parse_limit_offset none offset_str default_limit max_limit = .ok (l, o) →
        l = default_limit) ∧
    (∀ l o, parse_limit_offset limit_str none default_limit max_limit = .ok (l, o) →
        o = 0) := by
  refine ⟨?_, ?_, ?_⟩
  · intro l o h
    have hc := parse_limit_offset_ok _ _ _ _ _ _ h
    exact hc.2.2
  · intro l o h
    have hc := parse_limit_offset_ok _ _ _ _ _ _ h
    have h5 : some default_limit = some l := hc.1
    injection h5 with h6
    exact h6.symm
  · intro l o h
    have hc := parse_limit_offset_ok _ _ _ _ _ _ h
    have h5 : some (0 : Int) = some o := hc.2.1
    injection h5 with h6
    exact h6.symm

/-- Witness for claim C10 at concrete inputs: present strings "5" and "3" give
a pair in range; a missing limit with offset "3" gives the default 20; a
missing offset with limit "5" gives 0. -/
theorem C10_witness :
    (1 ≤ (5 : Int) ∧ (5 : Int) ≤ 100 ∧ 0 ≤ (3 : Int))
      ∧ (20 : Int) = 20 ∧ (0 : Int) = 0 :=
  ⟨(C10_parse_limit_offset (some "5") (some "3") 20 100).1 5 3 rfl,
   (C10_parse_limit_offset (some "5") (some "3") 20 100).2.1 20 3 rfl,
   (C10_parse_limit_offset (some "5") (some "3") 20 100).2.2 5 0 rfl⟩
